import Mathlib

/-!
Shallow embedding of `src/colour_experiment.py` (a Streamlit colour-perception
experiment) for checking the natural-language specification against the code.

Conventions of the embedding:
* Python `float` arithmetic is modelled over `ℚ`.  Every concrete value a
  theorem below evaluates the code at is exactly representable as an IEEE
  double and every operation performed on it by the code (`+`, `-`, `*`, `/`
  on small integers and halves, `int()`, `round(_, 2)`) is exact there, so the
  rational value coincides with the float value the program computes.
* Python wall-clock timestamps (`time.time()` results) are passed in as `ℚ`
  parameters.
* Fallible Python code (string parsing that can raise `ValueError`, dict
  lookups that can raise `KeyError`) is modelled with `Option`.
* Streamlit's `st.session_state` is an explicit `SessionState` structure and
  each event-handler block of the script is a state-transition function.
-/

namespace ColourExperiment

/-- Value of one hexadecimal digit character, as accepted by Python's
`int(s, 16)`: `0`-`9`, `a`-`f` and `A`-`F`.  `none` for any other character. -/
def hexDigitVal? (c : Char) : Option Nat :=
  if 48 ≤ c.toNat ∧ c.toNat ≤ 57 then some (c.toNat - 48)
  else if 97 ≤ c.toNat ∧ c.toNat ≤ 102 then some (c.toNat - 87)
  else if 65 ≤ c.toNat ∧ c.toNat ≤ 70 then some (c.toNat - 55)
  else none

/-- The hexadecimal digit character Python's `'{:02x}'` format produces for a
value `0 ≤ n < 16` (lowercase letters). -/
def hexDigitChar (n : Nat) : Char :=
  match n with
  | 0 => '0' | 1 => '1' | 2 => '2' | 3 => '3' | 4 => '4'
  | 5 => '5' | 6 => '6' | 7 => '7' | 8 => '8' | 9 => '9'
  | 10 => 'a' | 11 => 'b' | 12 => 'c' | 13 => 'd' | 14 => 'e'
  | _ => 'f'

/-- Parse the slice `hex_color[i:i+2]` of the digit list `cs` the way
`int(hex_color[i:i+2], 16)` does: two digits give `16*d1 + d2`, a final single
digit parses alone, and an empty slice raises (is `none`). -/
def parseHexAt (cs : List Char) (i : Nat) : Option Nat :=
  match cs.drop i with
  | c1 :: c2 :: _ => do
      let d1 ← hexDigitVal? c1
      let d2 ← hexDigitVal? c2
      pure (16 * d1 + d2)
  | [c1] => hexDigitVal? c1
  | [] => none

/-- `hex_to_rgb` (src lines 15-18): strip leading `#` characters
(`str.lstrip('#')` removes every leading `#`) and parse the three two-digit
slices at offsets 0, 2 and 4. -/
def hex_to_rgb (hex_color : String) : Option (Nat × Nat × Nat) := do
  let cs := hex_color.toList.dropWhile (fun c => c == '#')
  let r ← parseHexAt cs 0
  let g ← parseHexAt cs 2
  let b ← parseHexAt cs 4
  pure (r, g, b)

/-- Worker for `natToHexChars`: structural recursion on a fuel argument so the
function reduces inside the kernel; the fuel never runs out when it starts at
`n + 1`, because the value shrinks by a factor of 16 each round. -/
def natToHexCharsAux : Nat → Nat → List Char
  | 0, _ => []
  | fuel + 1, n =>
    if n < 16 then [hexDigitChar n]
    else natToHexCharsAux fuel (n / 16) ++ [hexDigitChar (n % 16)]

/-- Hexadecimal digit expansion of a natural number, most significant digit
first, as produced by Python's `'{:x}'` format (a single `'0'` for zero). -/
def natToHexChars (n : Nat) : List Char := natToHexCharsAux (n + 1) n

/-- Python's `'{:02x}'.format(n)` for an `int` argument: hex digits of the
magnitude, zero-padded so the whole rendering (sign included) is at least two
characters wide. -/
def pyFmt02x (n : ℤ) : List Char :=
  if n < 0 then
    '-' :: (let ds := natToHexChars n.natAbs
            List.replicate (1 - ds.length) '0' ++ ds)
  else
    let ds := natToHexChars n.toNat
    List.replicate (2 - ds.length) '0' ++ ds

/-- Python's `int()` on a float/rational: truncation toward zero. -/
def pyInt (q : ℚ) : ℤ :=
  if 0 ≤ q then ⌊q⌋ else -⌊-q⌋

/-- Python's `round(x)` to an integer: round half to even (banker's
rounding). -/
def pyRoundInt (q : ℚ) : ℤ :=
  let f := ⌊q⌋
  if q - f < 1 / 2 then f
  else if 1 / 2 < q - f then f + 1
  else if f % 2 = 0 then f else f + 1

/-- Python's `round(x, 2)`: round to two decimal places, half to even. -/
def pyRound2 (q : ℚ) : ℚ :=
  (pyRoundInt (q * 100) : ℚ) / 100

/-- `rgb_to_hex` (src lines 20-22):
`'#{:02x}{:02x}{:02x}'.format(int(rgb[0]), int(rgb[1]), int(rgb[2]))`. -/
def rgb_to_hex (rgb : ℚ × ℚ × ℚ) : String :=
  String.mk ('#' :: (pyFmt02x (pyInt rgb.1) ++ pyFmt02x (pyInt rgb.2.1)
    ++ pyFmt02x (pyInt rgb.2.2)))

/-- One channel of `interpolate_color` (src lines 29-31):
`r1 + (r2 - r1) * current_step / steps`, Python int arithmetic up to the true
division, which produces a float. -/
def interpChannel (a b : Nat) (steps current_step : Nat) : ℚ :=
  (a : ℚ) + ((b : ℚ) - (a : ℚ)) * (current_step : ℚ) / (steps : ℚ)

/-- `interpolate_color` (src lines 24-33): parse both endpoint colours and
interpolate each channel.  `none` when either colour fails to parse (Python
raises). -/
def interpolate_color (color1 color2 : String) (steps current_step : Nat) :
    Option (ℚ × ℚ × ℚ) := do
  let c1 ← hex_to_rgb color1
  let c2 ← hex_to_rgb color2
  pure (interpChannel c1.1 c2.1 steps current_step,
        interpChannel c1.2.1 c2.2.1 steps current_step,
        interpChannel c1.2.2 c2.2.2 steps current_step)

/-- The hex string the trial display renders at a given step: the composition
`rgb_to_hex (interpolate_color ...)` from src lines 460-466. -/
def renderAt (color1 color2 : String) (steps current_step : Nat) :
    Option String :=
  (interpolate_color color1 color2 steps current_step).map rgb_to_hex

/-- `calculate_reaction_time` (src lines 35-39).  The Python guard is
`if step_change_time and button_press_time:`, so a timestamp equal to `0.0`
(falsy) also yields `None`. -/
def calculate_reaction_time (step_change_time button_press_time : ℚ) :
    Option ℚ :=
  if step_change_time ≠ 0 ∧ button_press_time ≠ 0 then
    some (pyRound2 ((button_press_time - step_change_time) * 1000))
  else none

/-- The false-alarm test of src line 519:
`if reaction_time and reaction_time < 200:`.  A `None` reaction time is falsy,
and so is a reaction time equal to `0.0`. -/
def isFalseAlarmPress (reaction_time : Option ℚ) : Bool :=
  match reaction_time with
  | none => false
  | some v => (decide (v ≠ 0)) && (decide (v < 200))

/-- `random.uniform(a, b)`: `a + (b - a) * r` where `r` is the underlying
`random.random()` sample in `[0, 1)`.  The sample is a parameter of the
embedding. -/
def pyUniform (a b r : ℚ) : ℚ := a + (b - a) * r

/-- The re-sampling of `st.session_state.next_interval` performed by
`initialize_session_state` (src lines 53-54): `random.uniform(0.5, 2.0)`, with
hard-coded bounds that ignore the configured `min_interval`/`max_interval`. -/
def initNextInterval (r : ℚ) : ℚ := pyUniform (1 / 2) 2 r

/-- The four values of `st.session_state.phase` (src line 44). -/
inductive Phase where
  | setup
  | practice
  | main
  | results
deriving DecidableEq

/-- One entry of `st.session_state.spectra_order`, as built in
`render_setup_phase` (src lines 309-314). -/
structure TrialDescriptor where
  spectrum_name : String
  start_color : String
  end_color : String
  trial_number : Nat
deriving DecidableEq

/-- One result dict appended by `run_colour_trial` (src lines 503-514).  The
`spectrum`, `trial_number` and `overall_trial` keys are absent until
`render_main_experiment` adds them while saving a finished trial (src lines
407-410), hence `Option`.  The wall-clock `timestamp` string is not modelled
(pure presentation, used by no claim). -/
structure ResultRecord where
  participant_id : String
  gender : String
  age : Nat
  step_number : Nat
  total_steps : Nat
  percentage_complete : ℚ
  hex_code : String
  rgb : String
  reaction_time_ms : Option ℚ
  spectrum : Option String := none
  trial_number : Option Nat := none
  overall_trial : Option Nat := none
deriving DecidableEq

/-- The `st.session_state` fields the Trial Engine reads and writes
(`initialize_session_state`, src lines 41-70, plus the configuration saved by
`render_setup_phase`, src lines 292-301). -/
structure SessionState where
  phase : Phase
  current_trial : Nat
  current_step : Nat
  last_update_time : ℚ
  last_step_change_time : ℚ
  next_interval : ℚ
  all_results : List ResultRecord
  current_trial_results : List ResultRecord
  participant_id : String
  gender : String
  age : Nat
  spectra_order : List TrialDescriptor
  false_alarms : Nat
  total_steps : Nat
  min_interval : ℚ
  max_interval : ℚ
deriving DecidableEq

/-- `'({}, {}, {})'`-style rendering of the `rgb` result field
(src line 511): `f"({int(r)}, {int(g)}, {int(b)})"`. -/
def rgbFieldString (rgb : ℚ × ℚ × ℚ) : String :=
  "(" ++ toString (pyInt rgb.1) ++ ", " ++ toString (pyInt rgb.2.1)
    ++ ", " ++ toString (pyInt rgb.2.2) ++ ")"

/-- The `if button_pressed:` block of `run_colour_trial` (src lines 498-525),
for a run whose displayed colours come from `start_color`/`end_color` and a
button press at wall-clock time `now`.  When the trial is already complete
(`current_step >= total_steps`, src line 456) the function has returned before
rendering the button, so no press is possible and the state is unchanged.
`none` models a Python exception from parsing an invalid colour. -/
def detectPress (start_color end_color : String) (now : ℚ)
    (s : SessionState) : Option SessionState :=
  if s.total_steps ≤ s.current_step then some s
  else
    match interpolate_color start_color end_color s.total_steps
        s.current_step with
    | none => none
    | some current_rgb =>
      let current_hex := rgb_to_hex current_rgb
      let reaction_time := calculate_reaction_time s.last_step_change_time now
      let result : ResultRecord :=
        { participant_id := s.participant_id
          gender := s.gender
          age := s.age
          step_number := s.current_step
          total_steps := s.total_steps
          percentage_complete :=
            pyRound2 ((s.current_step : ℚ) / (s.total_steps : ℚ) * 100)
          hex_code := current_hex
          rgb := rgbFieldString current_rgb
          reaction_time_ms := reaction_time }
      some { s with
        current_trial_results := s.current_trial_results ++ [result]
        false_alarms :=
          if isFalseAlarmPress reaction_time then s.false_alarms + 1
          else s.false_alarms }

/-- The auto-advance block of `run_colour_trial` (src lines 527-537), at
wall-clock time `now`, with `r` the `random.random()` sample behind the
`random.uniform(min_interval, max_interval)` call.  Unreachable when the trial
is complete (src line 456 returns first). -/
def tickAdvance (now r : ℚ) (s : SessionState) : SessionState :=
  if s.total_steps ≤ s.current_step then s
  else if s.next_interval ≤ now - s.last_update_time then
    { s with
      current_step := s.current_step + 1
      last_update_time := now
      last_step_change_time := now
      next_interval := pyUniform s.min_interval s.max_interval r }
  else s

/-- The `Start Main Experiment` button handler of `render_practice_phase`
(src lines 368-374): enter the main phase, reset the trial counters and
discard the practice trial's response buffer. -/
def startMainExperiment (s : SessionState) : SessionState :=
  { s with
    phase := Phase.main
    current_trial := 0
    current_step := 0
    current_trial_results := []
    false_alarms := 0 }

/-- The save loop of `render_main_experiment` (src lines 405-411): when a main
trial completes, each buffered response is annotated with the trial's spectrum
info and appended to `all_results`.  `none` when `current_trial` is out of
range of `spectra_order` (Python `IndexError` at src line 388). -/
def saveTrialResults (s : SessionState) : Option SessionState :=
  match s.spectra_order.get? s.current_trial with
  | none => none
  | some info =>
    some { s with
      all_results := s.all_results ++ s.current_trial_results.map
        (fun result =>
          { result with
            spectrum := some info.spectrum_name
            trial_number := some info.trial_number
            overall_trial := some (s.current_trial + 1) }) }

/-- The `Next Trial` button handler of `render_main_experiment`
(src lines 420-425). -/
def nextTrial (s : SessionState) : SessionState :=
  { s with
    current_trial := s.current_trial + 1
    current_step := 0
    current_trial_results := []
    false_alarms := 0 }

/-- `get_spectra_list` (src lines 72-81), as a name-keyed association list. -/
def get_spectra_list : List (String × String × String) :=
  [("Red to Orange", "#FF0000", "#FF8800"),
   ("Red to Green", "#FF0000", "#00FF00"),
   ("Yellow to Green", "#FFFF00", "#00FF00"),
   ("Blue to Purple", "#0000FF", "#8000FF"),
   ("Orange to Yellow", "#FF8800", "#FFFF00"),
   ("Green to Cyan", "#00FF00", "#00FFFF")]

/-- The dict lookup `spectra[spectrum_name]` (src lines 311-312); `none`
models a `KeyError`. -/
def lookupSpectrum (name : String) : Option (String × String) :=
  (get_spectra_list.find? (fun e => e.1 == name)).map (fun e => e.2)

/-- The trial-order construction of `render_setup_phase` (src lines 304-314),
before the optional shuffle: for each selected spectrum name, in order, one
descriptor per repeat with 1-based `trial_number`. -/
def buildTrialList (selected : List String) (repeats : Nat) :
    Option (List TrialDescriptor) :=
  match selected with
  | [] => some []
  | name :: rest =>
    match lookupSpectrum name, buildTrialList rest repeats with
    | some p, some tail =>
      some ((List.range repeats).map
        (fun k => ⟨name, p.1, p.2, k + 1⟩) ++ tail)
    | _, _ => none

/-- pandas `Series.mean()` over an exact-rational column. -/
def listMean (xs : List ℚ) : ℚ := xs.sum / (xs.length : ℚ)

/-- pandas `Series.median()`: middle element of the sorted column, or the
average of the two middle elements for an even length. -/
def listMedian (xs : List ℚ) : ℚ :=
  let sorted := xs.insertionSort (· ≤ ·)
  if xs.length % 2 = 1 then sorted.getD (xs.length / 2) 0
  else (sorted.getD (xs.length / 2 - 1) 0 + sorted.getD (xs.length / 2) 0) / 2

/-- The sample variance with the `n - 1` denominator: the square of what
pandas `Series.std()` (default `ddof = 1`) computes.  Kept as a variance so
the statistics stay inside `ℚ`. -/
def sampleVariance (xs : List ℚ) : ℚ :=
  ((xs.map (fun x => (x - listMean xs) ^ 2)).sum) / ((xs.length : ℚ) - 1)

/-- The mean/median/std summary a results column is reduced to
(`render_results_phase`).  `stdSq` is the square of the printed standard
deviation. -/
structure ColumnStats where
  mean : ℚ
  median : ℚ
  stdSq : ℚ
deriving DecidableEq

/-- Summary of one rational column, as produced by pandas
`.mean()`/`.median()`/`.std()`. -/
def seriesStats (xs : List ℚ) : ColumnStats :=
  ⟨listMean xs, listMedian xs, sampleVariance xs⟩

/-- The `Detection Points` block of `render_results_phase` (src lines
638-643): statistics of `df['percentage_complete']`, where `df` holds every
record of `all_results`. -/
def detection_points_stats (records : List ResultRecord) : ColumnStats :=
  seriesStats (records.map (fun r => r.percentage_complete))

/-- The `Reaction Times` block of `render_results_phase` (src lines 645-652):
statistics of `df[df['reaction_time_ms'].notna()]['reaction_time_ms']`. -/
def reaction_time_stats (records : List ResultRecord) : ColumnStats :=
  seriesStats (records.filterMap (fun r => r.reaction_time_ms))

/-- One row of the `groupby('spectrum')` summary of `render_results_phase`
(src lines 655-660): the percentage statistics of every record whose
`spectrum` column equals `name`. -/
def spectrum_group_stats (records : List ResultRecord) (name : String) :
    ColumnStats :=
  seriesStats ((records.filter (fun r => r.spectrum == some name)).map
    (fun r => r.percentage_complete))

/-! ### Helper lemmas about hex parsing and formatting -/

theorem hexDigitVal?_lt {c : Char} {d : Nat} (h : hexDigitVal? c = some d) :
    d < 16 := by
  unfold hexDigitVal? at h
  split at h
  · injection h with h
    omega
  · split at h
    · injection h with h
      omega
    · split at h
      · injection h with h
        omega
      · cases h

theorem hexDigitVal?_hexDigitChar :
    ∀ d, d < 16 → hexDigitVal? (hexDigitChar d) = some d := by decide

theorem hexDigitChar_ne_hash (d : Nat) : hexDigitChar d ≠ '#' := by
  unfold hexDigitChar
  split <;> decide

theorem parseHexAt_lt {cs : List Char} {i m : Nat}
    (h : parseHexAt cs i = some m) : m < 256 := by
  unfold parseHexAt at h
  split at h
  · rename_i c1 c2 rest heq
    cases h1 : hexDigitVal? c1 with
    | none => simp [h1] at h
    | some d1 =>
      cases h2 : hexDigitVal? c2 with
      | none => simp [h1, h2] at h
      | some d2 =>
        have e1 := hexDigitVal?_lt h1
        have e2 := hexDigitVal?_lt h2
        simp [h1, h2] at h
        omega
  · rename_i c1 heq
    have := hexDigitVal?_lt h
    omega
  · exact absurd h (by simp)

theorem natToHexChars_of_lt {m : Nat} (h : m < 16) :
    natToHexChars m = [hexDigitChar m] := by
  simp [natToHexChars, natToHexCharsAux, h]

theorem natToHexChars_of_byte {m : Nat} (h16 : 16 ≤ m) (h : m < 256) :
    natToHexChars m = [hexDigitChar (m / 16), hexDigitChar (m % 16)] := by
  obtain ⟨k, rfl⟩ : ∃ k, m = k + 1 := ⟨m - 1, by omega⟩
  have hd : (k + 1) / 16 < 16 := by omega
  have hk : (k + 1) / 16 ≤ k := by omega
  simp only [natToHexChars, natToHexCharsAux, if_neg (by omega : ¬ k + 1 < 16)]
  obtain ⟨j, hj⟩ : ∃ j, k = j + 1 := ⟨k - 1, by omega⟩
  subst hj
  simp [natToHexCharsAux, hd]

theorem pyFmt02x_byte {m : Nat} (h : m < 256) :
    pyFmt02x (m : ℤ) = [hexDigitChar (m / 16), hexDigitChar (m % 16)] := by
  have h0 : ¬ ((m : ℤ) < 0) := by omega
  by_cases h16 : m < 16
  · have : m / 16 = 0 := Nat.div_eq_of_lt h16
    have : hexDigitChar (m / 16) = '0' := by rw [this]; rfl
    simp [pyFmt02x, h0, Int.toNat_natCast, natToHexChars_of_lt h16, this,
      List.replicate, Nat.mod_eq_of_lt h16]
  · simp [pyFmt02x, h0, Int.toNat_natCast,
      natToHexChars_of_byte (by omega) h, List.replicate]

theorem parseHexAt_pyFmt02x {m : Nat} (h : m < 256) (rest : List Char) :
    parseHexAt (pyFmt02x (m : ℤ) ++ rest) 0 = some m := by
  rw [pyFmt02x_byte h]
  have hd : m / 16 < 16 := by omega
  have hm : m % 16 < 16 := by omega
  simp [parseHexAt, hexDigitVal?_hexDigitChar _ hd,
    hexDigitVal?_hexDigitChar _ hm, Nat.div_add_mod]

/-- Python's `int()` of a nonnegative value is its floor. -/
theorem pyInt_of_nonneg {q : ℚ} (h : 0 ≤ q) : pyInt q = ⌊q⌋ := by
  simp [pyInt, h]

theorem pyInt_natCast (n : Nat) : pyInt (n : ℚ) = (n : ℤ) := by
  rw [pyInt_of_nonneg (by positivity)]
  exact Int.floor_natCast n

/-- Round trip at the level of channel triples: formatting a byte triple and
parsing it back is the identity.  This is the computational heart of both the
`hex_to_rgb`/`rgb_to_hex` inverse property and the interpolation endpoint
property. -/
theorem hex_to_rgb_rgb_to_hex {r g b : Nat}
    (hr : r < 256) (hg : g < 256) (hb : b < 256) :
    hex_to_rgb (rgb_to_hex ((r : ℚ), (g : ℚ), (b : ℚ))) = some (r, g, b) := by
  unfold rgb_to_hex hex_to_rgb
  simp only [pyInt_natCast]
  have hlist : (String.mk ('#' :: (pyFmt02x (r : ℤ) ++ pyFmt02x (g : ℤ)
      ++ pyFmt02x (b : ℤ)))).toList
      = '#' :: (pyFmt02x (r : ℤ) ++ pyFmt02x (g : ℤ) ++ pyFmt02x (b : ℤ)) :=
    rfl
  rw [hlist]
  have hdrop : ('#' :: (pyFmt02x (r : ℤ) ++ pyFmt02x (g : ℤ)
      ++ pyFmt02x (b : ℤ))).dropWhile (fun c => c == '#')
      = pyFmt02x (r : ℤ) ++ pyFmt02x (g : ℤ) ++ pyFmt02x (b : ℤ) := by
    rw [List.dropWhile_cons_of_pos (by decide)]
    rw [pyFmt02x_byte hr]
    exact List.dropWhile_cons_of_neg
      (by simp [hexDigitChar_ne_hash])
  rw [hdrop]
  rw [pyFmt02x_byte hr, pyFmt02x_byte hg, pyFmt02x_byte hb]
  rw [← pyFmt02x_byte hr, ← pyFmt02x_byte hg, ← pyFmt02x_byte hb]
  have p0 : parseHexAt (pyFmt02x (r : ℤ) ++ pyFmt02x (g : ℤ)
      ++ pyFmt02x (b : ℤ)) 0 = some r := by
    rw [List.append_assoc]
    exact parseHexAt_pyFmt02x hr _
  have hdrop2 : ∀ (t : List Char), (pyFmt02x (r : ℤ) ++ t).drop 2 = t := by
    intro t
    rw [pyFmt02x_byte hr]
    rfl
  have p2 : parseHexAt (pyFmt02x (r : ℤ) ++ pyFmt02x (g : ℤ)
      ++ pyFmt02x (b : ℤ)) 2 = some g := by
    unfold parseHexAt
    rw [List.append_assoc, hdrop2]
    have := parseHexAt_pyFmt02x hg (pyFmt02x (b : ℤ))
    unfold parseHexAt at this
    simpa using this
  have p4 : parseHexAt (pyFmt02x (r : ℤ) ++ pyFmt02x (g : ℤ)
      ++ pyFmt02x (b : ℤ)) 4 = some b := by
    unfold parseHexAt
    have hdrop4 : (pyFmt02x (r : ℤ) ++ pyFmt02x (g : ℤ)
        ++ pyFmt02x (b : ℤ)).drop 4 = pyFmt02x (b : ℤ) := by
      rw [pyFmt02x_byte hr, pyFmt02x_byte hg]
      rfl
    rw [hdrop4]
    have := parseHexAt_pyFmt02x hb []
    unfold parseHexAt at this
    simpa using this
  rw [p0, p2, p4]
  rfl

/-- Parsing gives byte-sized channels. -/
theorem hex_to_rgb_lt {s : String} {r g b : Nat}
    (h : hex_to_rgb s = some (r, g, b)) : r < 256 ∧ g < 256 ∧ b < 256 := by
  unfold hex_to_rgb at h
  simp only [bind, pure, Option.bind_eq_some, Option.some.injEq,
    Prod.mk.injEq] at h
  obtain ⟨x, h0, y, h2, z, h4, hx, hy, hz⟩ := h
  subst hx
  subst hy
  subst hz
  exact ⟨parseHexAt_lt h0, parseHexAt_lt h2, parseHexAt_lt h4⟩

/-! ### Helper lemmas about the interpolation formula -/

theorem interpChannel_zero (a b n : Nat) : interpChannel a b n 0 = a := by
  simp [interpChannel]

theorem interpChannel_total {n : Nat} (a b : Nat) (hn : 0 < n) :
    interpChannel a b n n = b := by
  have hne : (n : ℚ) ≠ 0 := Nat.cast_ne_zero.2 hn.ne'
  field_simp [interpChannel]

theorem interpChannel_nonneg {a b n s : Nat} (hs : s ≤ n) (hn : 0 < n) :
    0 ≤ interpChannel a b n s := by
  have ht0 : 0 ≤ (s : ℚ) / (n : ℚ) := by positivity
  have ht1 : (s : ℚ) / (n : ℚ) ≤ 1 := by
    rw [div_le_one (by exact_mod_cast hn)]
    exact_mod_cast hs
  have ha0 : 0 ≤ (a : ℚ) := by positivity
  have hb0 : 0 ≤ (b : ℚ) := by positivity
  rw [interpChannel, mul_div_assoc]
  nlinarith [mul_nonneg (sub_nonneg.2 ht1) ha0,
    mul_nonneg ht0 hb0]

theorem interpChannel_le {a b n s : Nat} (ha : a ≤ 255) (hb : b ≤ 255)
    (hs : s ≤ n) (hn : 0 < n) : interpChannel a b n s ≤ 255 := by
  have ht0 : 0 ≤ (s : ℚ) / (n : ℚ) := by positivity
  have ht1 : (s : ℚ) / (n : ℚ) ≤ 1 := by
    rw [div_le_one (by exact_mod_cast hn)]
    exact_mod_cast hs
  have ha' : (a : ℚ) ≤ 255 := by exact_mod_cast ha
  have hb' : (b : ℚ) ≤ 255 := by exact_mod_cast hb
  rw [interpChannel, mul_div_assoc]
  nlinarith [mul_nonneg (sub_nonneg.2 ht1) (sub_nonneg.2 ha'),
    mul_nonneg ht0 (sub_nonneg.2 hb')]

/-! ### Floor-based rendering helpers -/

/-- Two-hex-digit rendering of a byte value. -/
def bytePair (m : Nat) : List Char := [hexDigitChar (m / 16), hexDigitChar (m % 16)]

theorem floor_toNat_lt {q : ℚ} (h255 : q ≤ 255) : ⌊q⌋.toNat < 256 := by
  have h1 : ⌊q⌋ ≤ ⌊(255 : ℚ)⌋ := Int.floor_le_floor h255
  have h2 : ⌊(255 : ℚ)⌋ = 255 := by norm_num
  omega

theorem pyInt_toNat_cast {q : ℚ} (h0 : 0 ≤ q) :
    pyInt q = ((⌊q⌋.toNat : Nat) : ℤ) := by
  rw [pyInt_of_nonneg h0, Int.toNat_of_nonneg (Int.floor_nonneg.2 h0)]

theorem pyFmt02x_pyInt {q : ℚ} (h0 : 0 ≤ q) (h255 : q ≤ 255) :
    pyFmt02x (pyInt q) = bytePair ⌊q⌋.toNat := by
  rw [pyInt_toNat_cast h0]
  exact pyFmt02x_byte (floor_toNat_lt h255)

/-! ### Claim theorems -/

/-- **C9** (confirmed).  For every integer RGB triple with each channel in
[0, 255], converting it to hex with `rgb_to_hex` and parsing the result with
`hex_to_rgb` returns exactly the original triple. -/
theorem hex_roundtrip_confirmed (r g b : Nat)
    (hr : r ≤ 255) (hg : g ≤ 255) (hb : b ≤ 255) :
    hex_to_rgb (rgb_to_hex ((r : ℚ), (g : ℚ), (b : ℚ))) = some (r, g, b) :=
  hex_to_rgb_rgb_to_hex (by omega) (by omega) (by omega)

/-- Witness for C9 at the concrete triple (200, 5, 255). -/
theorem hex_roundtrip_witness :
    (200 : Nat) ≤ 255 ∧ (5 : Nat) ≤ 255 ∧ (255 : Nat) ≤ 255 ∧
    hex_to_rgb (rgb_to_hex (((200 : Nat) : ℚ), ((5 : Nat) : ℚ),
      ((255 : Nat) : ℚ))) = some (200, 5, 255) :=
  ⟨by decide, by decide, by decide,
    hex_roundtrip_confirmed 200 5 255 (by decide) (by decide) (by decide)⟩

/-- **C2** (counterexample).  A captured response whose reaction time is
exactly `0.0` ms has a present reaction time below the 200 ms threshold, yet
the code classifies it as valid, because `0.0` is falsy in the guard
`if reaction_time and reaction_time < 200:`.  So "false alarm iff
rt < threshold" fails at rt = 0. -/
theorem classifier_zero_cex :
    isFalseAlarmPress (some 0) = false ∧ ((0 : ℚ) < 200) := by
  constructor
  · with_unfolding_all rfl
  · norm_num

/-- **C2** (amended).  A captured response with a present reaction time is
classified as a false alarm iff its reaction time is nonzero and strictly
below the 200 ms threshold; in particular the boundary rt = 200 is valid, and
a missing reaction time is never a false alarm. -/
theorem classifier_amended (v : ℚ) :
    (isFalseAlarmPress (some v) = true ↔ (v ≠ 0 ∧ v < 200))
    ∧ isFalseAlarmPress (some 200) = false
    ∧ isFalseAlarmPress none = false := by
  refine ⟨?_, ?_, rfl⟩
  · simp [isFalseAlarmPress]
  · simp [isFalseAlarmPress]

/-- **C1** (counterexample).  `"#FF0000"` is a valid hex RGB colour (it
parses to (255, 0, 0)), but interpolating from it at `currentStep = 0` and
rendering as hex returns the lowercase string `"#ff0000"`, not exactly the
input string `"#FF0000"`. -/
theorem endpoint_exact_cex :
    hex_to_rgb "#FF0000" = some (255, 0, 0)
    ∧ renderAt "#FF0000" "#00FF00" 1 0 = some "#ff0000"
    ∧ "#ff0000" ≠ "#FF0000" := by
  refine ⟨by with_unfolding_all rfl, by with_unfolding_all rfl, by decide⟩

/-- **C1** (amended).  For all parseable colours A and B and `totalSteps > 0`,
rendering the interpolation at `currentStep = 0` produces a hex string that
parses back to exactly A's channel triple, and at `currentStep = totalSteps`
to exactly B's triple.  (The rendered string is the lowercase canonical form
of that triple, so it equals the input string only when the input uses
lowercase digits.) -/
theorem endpoint_exact_amended (A B : String) (n : Nat)
    (rA rB : Nat × Nat × Nat)
    (hA : hex_to_rgb A = some rA) (hB : hex_to_rgb B = some rB)
    (hn : 0 < n) :
    (renderAt A B n 0).bind hex_to_rgb = some rA
    ∧ (renderAt A B n n).bind hex_to_rgb = some rB := by
  obtain ⟨r1, g1, b1⟩ := rA
  obtain ⟨r2, g2, b2⟩ := rB
  obtain ⟨hr1, hg1, hb1⟩ := hex_to_rgb_lt hA
  obtain ⟨hr2, hg2, hb2⟩ := hex_to_rgb_lt hB
  have e0 : interpolate_color A B n 0
      = some ((r1 : ℚ), (g1 : ℚ), (b1 : ℚ)) := by
    simp [interpolate_color, hA, hB, bind, pure, interpChannel_zero]
  have en : interpolate_color A B n n
      = some ((r2 : ℚ), (g2 : ℚ), (b2 : ℚ)) := by
    simp [interpolate_color, hA, hB, bind, pure, interpChannel_total _ _ hn]
  constructor
  · rw [renderAt, e0]
    simpa using hex_to_rgb_rgb_to_hex hr1 hg1 hb1
  · rw [renderAt, en]
    simpa using hex_to_rgb_rgb_to_hex hr2 hg2 hb2

/-- Witness for the amended C1, at A = `"#ff0000"`, B = `"#00ff00"`,
`totalSteps = 2`. -/
theorem endpoint_exact_witness :
    hex_to_rgb "#ff0000" = some (255, 0, 0)
    ∧ hex_to_rgb "#00ff00" = some (0, 255, 0)
    ∧ 0 < 2
    ∧ (renderAt "#ff0000" "#00ff00" 2 0).bind hex_to_rgb = some (255, 0, 0)
    ∧ (renderAt "#ff0000" "#00ff00" 2 2).bind hex_to_rgb = some (0, 255, 0) := by
  have h := endpoint_exact_amended "#ff0000" "#00ff00" 2 (255, 0, 0)
    (0, 255, 0) (by with_unfolding_all rfl) (by with_unfolding_all rfl)
    (by decide)
  exact ⟨by with_unfolding_all rfl, by with_unfolding_all rfl, by decide,
    h.1, h.2⟩

/-- **C6** (counterexample).  Interpolating from `#000000` to `#FE0000` with
`totalSteps = 3` at `currentStep = 1` gives the red channel value 254/3 ≈
84.67.  The nearest integer is 85, but the code renders `"#540000"`, i.e.
channel 84: `int()` truncates toward zero instead of rounding to nearest. -/
theorem render_rounding_cex :
    interpolate_color "#000000" "#FE0000" 3 1 = some ((254 : ℚ) / 3, 0, 0)
    ∧ renderAt "#000000" "#FE0000" 3 1 = some "#540000"
    ∧ hex_to_rgb "#540000" = some (84, 0, 0)
    ∧ round ((254 : ℚ) / 3) = (85 : ℤ)
    ∧ (84 : ℤ) ≠ 85 := by
  refine ⟨by with_unfolding_all rfl, by with_unfolding_all rfl,
    by with_unfolding_all rfl, by norm_num [round_eq], by decide⟩

/-- **C6** (amended).  For every valid input with `0 ≤ currentStep ≤
totalSteps`, each channel value `start + (end - start) * currentStep /
totalSteps` lies in [0, 255], and the rendered hex string displays each
channel truncated toward zero (equivalently floored, the values being
nonnegative) to an integer, written as two lowercase hex digits — truncation,
not rounding to nearest. -/
theorem render_truncation_amended (A B : String) (n s : Nat)
    (rA rB : Nat × Nat × Nat)
    (hA : hex_to_rgb A = some rA) (hB : hex_to_rgb B = some rB)
    (hn : 0 < n) (hs : s ≤ n) :
    (0 ≤ interpChannel rA.1 rB.1 n s ∧ interpChannel rA.1 rB.1 n s ≤ 255)
    ∧ (0 ≤ interpChannel rA.2.1 rB.2.1 n s
        ∧ interpChannel rA.2.1 rB.2.1 n s ≤ 255)
    ∧ (0 ≤ interpChannel rA.2.2 rB.2.2 n s
        ∧ interpChannel rA.2.2 rB.2.2 n s ≤ 255)
    ∧ renderAt A B n s = some (String.mk ('#' ::
        (bytePair ⌊interpChannel rA.1 rB.1 n s⌋.toNat
          ++ bytePair ⌊interpChannel rA.2.1 rB.2.1 n s⌋.toNat
          ++ bytePair ⌊interpChannel rA.2.2 rB.2.2 n s⌋.toNat))) := by
  obtain ⟨r1, g1, b1⟩ := rA
  obtain ⟨r2, g2, b2⟩ := rB
  obtain ⟨hr1, hg1, hb1⟩ := hex_to_rgb_lt hA
  obtain ⟨hr2, hg2, hb2⟩ := hex_to_rgb_lt hB
  have c1 := And.intro (interpChannel_nonneg (a := r1) (b := r2) hs hn)
    (interpChannel_le (a := r1) (b := r2) (by omega) (by omega) hs hn)
  have c2 := And.intro (interpChannel_nonneg (a := g1) (b := g2) hs hn)
    (interpChannel_le (a := g1) (b := g2) (by omega) (by omega) hs hn)
  have c3 := And.intro (interpChannel_nonneg (a := b1) (b := b2) hs hn)
    (interpChannel_le (a := b1) (b := b2) (by omega) (by omega) hs hn)
  refine ⟨c1, c2, c3, ?_⟩
  have e : interpolate_color A B n s
      = some (interpChannel r1 r2 n s, interpChannel g1 g2 n s,
          interpChannel b1 b2 n s) := by
    simp [interpolate_color, hA, hB, bind, pure]
  rw [renderAt, e]
  simp only [Option.map_some', rgb_to_hex]
  rw [pyFmt02x_pyInt c1.1 c1.2, pyFmt02x_pyInt c2.1 c2.2,
    pyFmt02x_pyInt c3.1 c3.2]

/-- Witness for the amended C6 at the end-to-end scenario input: Red to
Green, 10 steps, step 5 (channel values 127.5, truncated to 127 = 0x7f). -/
theorem render_truncation_witness :
    hex_to_rgb "#FF0000" = some (255, 0, 0)
    ∧ hex_to_rgb "#00FF00" = some (0, 255, 0)
    ∧ 0 < 10 ∧ 5 ≤ 10
    ∧ renderAt "#FF0000" "#00FF00" 10 5 = some (String.mk ('#' ::
        (bytePair ⌊interpChannel 255 0 10 5⌋.toNat
          ++ bytePair ⌊interpChannel 0 255 10 5⌋.toNat
          ++ bytePair ⌊interpChannel 0 0 10 5⌋.toNat))) := by
  have h := render_truncation_amended "#FF0000" "#00FF00" 10 5 (255, 0, 0)
    (0, 255, 0) (by with_unfolding_all rfl) (by with_unfolding_all rfl)
    (by decide) (by decide)
  exact ⟨by with_unfolding_all rfl, by with_unfolding_all rfl, by decide,
    by decide, h.2.2.2⟩

/-- Structure of a successfully built trial order: concatenation of
per-spectrum blocks, each block listing one spectrum name `repeats` times
with 1-based repeat indices `1..repeats` in increasing order. -/
theorem buildTrialList_spec (selected : List String) (repeats : Nat)
    (L : List TrialDescriptor) (hL : buildTrialList selected repeats = some L) :
    L.length = selected.length * repeats
    ∧ L.map (fun t => t.spectrum_name)
        = selected.flatMap (fun nm => List.replicate repeats nm)
    ∧ L.map (fun t => t.trial_number)
        = selected.flatMap (fun _ => (List.range repeats).map (fun k => k + 1)) := by
  induction selected generalizing L with
  | nil =>
    unfold buildTrialList at hL
    injection hL with hL
    subst hL
    simp
  | cons name rest ih =>
    unfold buildTrialList at hL
    cases hlk : lookupSpectrum name with
    | none => rw [hlk] at hL; cases hL
    | some p =>
      cases hbt : buildTrialList rest repeats with
      | none => rw [hlk, hbt] at hL; cases hL
      | some tail =>
        rw [hlk, hbt] at hL
        injection hL with hL
        subst hL
        obtain ⟨ih1, ih2, ih3⟩ := ih tail hbt
        refine ⟨?_, ?_, ?_⟩
        · simp [ih1]
          ring
        · simp only [List.map_append, List.map_map, ih2, List.flatMap_cons]
          congr 1
          simp [Function.comp_def]
        · simp only [List.map_append, List.map_map, ih3, List.flatMap_cons]
          congr 1

/-- **C5** (confirmed).  With shuffling disabled, for every non-empty list of
selected spectrum names that build successfully and every `repeats ≥ 1`, the
built trial order has length `|selected| * repeats`, lists the selected
spectra in input order (each repeated `repeats` times consecutively), and
gives each block the 1-based repeat indices `1..repeats` in increasing
order. -/
theorem trial_order_confirmed (selected : List String) (repeats : Nat)
    (L : List TrialDescriptor) (hne : selected ≠ []) (hr : 1 ≤ repeats)
    (hL : buildTrialList selected repeats = some L) :
    L.length = selected.length * repeats
    ∧ L.map (fun t => t.spectrum_name)
        = selected.flatMap (fun nm => List.replicate repeats nm)
    ∧ L.map (fun t => t.trial_number)
        = selected.flatMap (fun _ => (List.range repeats).map (fun k => k + 1)) :=
  buildTrialList_spec selected repeats L hL

/-- Witness for C5: two spectra, two repeats each. -/
theorem trial_order_witness :
    (["Red to Orange", "Red to Green"] : List String) ≠ []
    ∧ 1 ≤ 2
    ∧ buildTrialList ["Red to Orange", "Red to Green"] 2
      = some [⟨"Red to Orange", "#FF0000", "#FF8800", 1⟩,
              ⟨"Red to Orange", "#FF0000", "#FF8800", 2⟩,
              ⟨"Red to Green", "#FF0000", "#00FF00", 1⟩,
              ⟨"Red to Green", "#FF0000", "#00FF00", 2⟩]
    ∧ ([⟨"Red to Orange", "#FF0000", "#FF8800", 1⟩,
        ⟨"Red to Orange", "#FF0000", "#FF8800", 2⟩,
        ⟨"Red to Green", "#FF0000", "#00FF00", 1⟩,
        ⟨"Red to Green", "#FF0000", "#00FF00", 2⟩] :
          List TrialDescriptor).length
      = (["Red to Orange", "Red to Green"] : List String).length * 2 := by
  have h := trial_order_confirmed ["Red to Orange", "Red to Green"] 2
    [⟨"Red to Orange", "#FF0000", "#FF8800", 1⟩,
     ⟨"Red to Orange", "#FF0000", "#FF8800", 2⟩,
     ⟨"Red to Green", "#FF0000", "#00FF00", 1⟩,
     ⟨"Red to Green", "#FF0000", "#00FF00", 2⟩]
    (by decide) (by decide) (by decide)
  exact ⟨by decide, by decide, by decide, h.1⟩

/-- **C10** (confirmed).  The session result log `all_results` is untouched
by every transition available during the practice phase — a detect press, a
step advance, and the `Start Main Experiment` button — and that button resets
the per-trial response buffer to empty, so practice responses are never
logged. -/
theorem practice_not_logged_confirmed (sc ec : String) (now r : ℚ)
    (s : SessionState) :
    ((detectPress sc ec now s).map (fun t => t.all_results)
      = (detectPress sc ec now s).map (fun _ => s.all_results))
    ∧ (tickAdvance now r s).all_results = s.all_results
    ∧ (startMainExperiment s).all_results = s.all_results
    ∧ (startMainExperiment s).current_trial_results = [] := by
  refine ⟨?_, ?_, rfl, rfl⟩
  · unfold detectPress
    split
    · rfl
    · split
      · rfl
      · rfl
  · unfold tickAdvance
    split
    · rfl
    · split
      · rfl
      · rfl

/-- A mid-trial session state: main phase, Red-to-Green spectrum, step 3 of
10, last step change at wall-clock time 1000. -/
def runningTrialState : SessionState :=
  { phase := Phase.main
    current_trial := 0
    current_step := 3
    last_update_time := 1000
    last_step_change_time := 1000
    next_interval := 1
    all_results := []
    current_trial_results := []
    participant_id := "P01"
    gender := "Male"
    age := 30
    spectra_order := [⟨"Red to Green", "#FF0000", "#00FF00", 1⟩]
    false_alarms := 0
    total_steps := 10
    min_interval := 1 / 2
    max_interval := 2 }

/-- **C3** (counterexample).  Two detect presses in the same running episode
(neither the step nor the trial has changed in between) append two
`DetectionRecord`s, not one: the code accepts every press while the trial
runs. -/
theorem single_shot_cex :
    (((detectPress "#FF0000" "#00FF00" (2001 / 2) runningTrialState).bind
        (detectPress "#FF0000" "#00FF00" 1001)).map
      (fun s => s.current_trial_results.length)) = some 2
    ∧ (2 : Nat) ≠ 1 := by
  refine ⟨by with_unfolding_all rfl, by decide⟩

/-- **C3** (amended).  While a trial is running (`current_step <
total_steps`), every detect press appends exactly one record to the per-trial
buffer — so n presses produce n records; presses are not limited to one per
running episode. -/
theorem detect_appends_one_amended (sc ec : String) (now : ℚ)
    (s : SessionState) (h : s.current_step < s.total_steps) :
    (detectPress sc ec now s).map (fun t => t.current_trial_results.length)
      = (detectPress sc ec now s).map
          (fun _ => s.current_trial_results.length + 1) := by
  unfold detectPress
  rw [if_neg (by omega)]
  cases hv : interpolate_color sc ec s.total_steps s.current_step with
  | none => rfl
  | some v => simp

/-- Witness for the amended C3 at the concrete running state. -/
theorem detect_appends_one_witness :
    runningTrialState.current_step < runningTrialState.total_steps
    ∧ (detectPress "#FF0000" "#00FF00" 1001 runningTrialState).map
        (fun t => t.current_trial_results.length)
      = (detectPress "#FF0000" "#00FF00" 1001 runningTrialState).map
          (fun _ => runningTrialState.current_trial_results.length + 1) :=
  ⟨by decide, detect_appends_one_amended _ _ _ _ (by decide)⟩

/-- The end-to-end scenario's starting state: Red to Green, 10 steps, trial
timers at wall-clock time 1000. -/
def scenarioStart : SessionState :=
  { phase := Phase.main
    current_trial := 0
    current_step := 0
    last_update_time := 1000
    last_step_change_time := 1000
    next_interval := 1
    all_results := []
    current_trial_results := []
    participant_id := "P01"
    gender := "Female"
    age := 25
    spectra_order := [⟨"Red to Green", "#FF0000", "#00FF00", 1⟩]
    false_alarms := 0
    total_steps := 10
    min_interval := 1 / 2
    max_interval := 2 }

/-- The scenario state after five ticks, one second apart, each of which
advances a step (the pending intervals are 1 then 0.5 seconds). -/
def scenarioAtStep5 : SessionState :=
  tickAdvance 1005 0 (tickAdvance 1004 0 (tickAdvance 1003 0
    (tickAdvance 1002 0 (tickAdvance 1001 0 scenarioStart))))

/-- The scenario state after a detect press 450 ms after the step-5 colour
change. -/
def scenarioDetected : Option SessionState :=
  detectPress "#FF0000" "#00FF00" (1005 + 9 / 20) scenarioAtStep5

/-- **C7** (counterexample).  In the end-to-end scenario the created record's
rendered hex colour string is `"#7f7f00"` — the RGB value the claim names,
but rendered with lowercase digits, so not the literal string `"#7F7F00"`. -/
theorem scenario_hex_cex :
    scenarioDetected.map
      (fun s => s.current_trial_results.map (fun r => r.hex_code))
      = some ["#7f7f00"]
    ∧ "#7f7f00" ≠ "#7F7F00" := by
  refine ⟨by with_unfolding_all rfl, by decide⟩

/-- **C7** (amended).  Ticks at times 1001..1005 drive the scenario to step 5;
the detect press 450 ms after the last step change creates exactly one record
with `percentage_complete = 50.0` and reaction time 450 ms, the press is not
classified as a false alarm (the false-alarm counter stays 0), and the
record's hex colour string is `"#7f7f00"` (value 0x7F7F00, lowercase
rendering). -/
theorem scenario_record_amended :
    scenarioAtStep5.current_step = 5
    ∧ scenarioDetected.map (fun s => s.current_trial_results.map
        (fun r => (r.percentage_complete, r.reaction_time_ms, r.hex_code)))
      = some [((50 : ℚ), some (450 : ℚ), "#7f7f00")]
    ∧ isFalseAlarmPress (some 450) = false
    ∧ scenarioDetected.map (fun s => s.false_alarms) = some 0 := by
  refine ⟨by with_unfolding_all rfl, by with_unfolding_all rfl,
    by with_unfolding_all rfl, by with_unfolding_all rfl⟩

/-- A freshly initialized session configured with interval bounds
[0.1, 0.2]: `initialize_session_state` sampled `next_interval` from the
hard-coded range `random.uniform(0.5, 2.0)` (here with underlying sample
r = 1/2, giving 1.25 s) before the configuration existed. -/
def misconfiguredState : SessionState :=
  { phase := Phase.main
    current_trial := 0
    current_step := 0
    last_update_time := 1000
    last_step_change_time := 1000
    next_interval := initNextInterval (1 / 2)
    all_results := []
    current_trial_results := []
    participant_id := "P01"
    gender := "Other"
    age := 40
    spectra_order := [⟨"Red to Green", "#FF0000", "#00FF00", 1⟩]
    false_alarms := 0
    total_steps := 10
    min_interval := 1 / 10
    max_interval := 1 / 5 }

/-- **C4** (counterexample).  The wait before the first step advance is the
session-initialization sample `uniform(0.5, 2.0)` — here 1.25 s — which lies
outside the configured interval bounds [0.1, 0.2]; indeed a tick 1.2 s after
the last update (six times the configured maximum) still does not advance the
step.  So not every sampled inter-step wait lies in
[min_interval, max_interval]. -/
theorem interval_bounds_cex :
    misconfiguredState.next_interval = 5 / 4
    ∧ ¬ (misconfiguredState.min_interval ≤ misconfiguredState.next_interval
          ∧ misconfiguredState.next_interval ≤ misconfiguredState.max_interval)
    ∧ (tickAdvance (1000 + 6 / 5) 0 misconfiguredState).current_step = 0 := by
  have e : misconfiguredState.next_interval = 5 / 4 := by
    with_unfolding_all rfl
  refine ⟨e, ?_, by with_unfolding_all rfl⟩
  intro h
  rw [e] at h
  have h2 := h.2
  simp only [misconfiguredState] at h2
  norm_num at h2

/-- **C4** (amended).  Every interval sampled by a step advance lies in the
configured `[min_interval, max_interval]`, and `next_interval` is overwritten
with that freshly drawn sample at every advance; but the session's initial
interval is drawn from the hard-coded range [0.5, 2.0], which need not lie
inside the configured bounds. -/
theorem interval_sampling_amended (s : SessionState) (now r : ℚ)
    (hr0 : 0 ≤ r) (hr1 : r ≤ 1) :
    (s.min_interval ≤ s.max_interval →
      s.min_interval ≤ pyUniform s.min_interval s.max_interval r
      ∧ pyUniform s.min_interval s.max_interval r ≤ s.max_interval)
    ∧ (s.current_step < s.total_steps →
        s.next_interval ≤ now - s.last_update_time →
        (tickAdvance now r s).next_interval
          = pyUniform s.min_interval s.max_interval r)
    ∧ (1 / 2 ≤ initNextInterval r ∧ initNextInterval r ≤ 2) := by
  refine ⟨?_, ?_, ?_⟩
  · intro hab
    unfold pyUniform
    constructor
    · nlinarith
    · nlinarith
  · intro h1 h2
    unfold tickAdvance
    rw [if_neg (by omega), if_pos h2]
  · unfold initNextInterval pyUniform
    constructor
    · nlinarith
    · nlinarith

/-- Witness for the amended C4 at the concrete running state, sample 1/2,
tick time 1001.5. -/
theorem interval_sampling_witness :
    (0 : ℚ) ≤ 1 / 2 ∧ (1 / 2 : ℚ) ≤ 1
    ∧ (runningTrialState.min_interval ≤ runningTrialState.max_interval →
        runningTrialState.min_interval
          ≤ pyUniform runningTrialState.min_interval
              runningTrialState.max_interval (1 / 2)
        ∧ pyUniform runningTrialState.min_interval
              runningTrialState.max_interval (1 / 2)
          ≤ runningTrialState.max_interval)
    ∧ (runningTrialState.current_step < runningTrialState.total_steps →
        runningTrialState.next_interval
          ≤ (2003 / 2) - runningTrialState.last_update_time →
        (tickAdvance (2003 / 2) (1 / 2) runningTrialState).next_interval
          = pyUniform runningTrialState.min_interval
              runningTrialState.max_interval (1 / 2))
    ∧ (1 / 2 ≤ initNextInterval (1 / 2) ∧ initNextInterval (1 / 2) ≤ 2) := by
  have h := interval_sampling_amended runningTrialState (2003 / 2) (1 / 2)
    (by norm_num) (by norm_num)
  exact ⟨by norm_num, by norm_num, h.1, h.2.1, h.2.2⟩

/-- The spec's statistics population, following the spec's words (§4.6/§8):
"computed only over records with `isFalseAlarm = false` and `reactionTimeMs`
present", a record counting as a false alarm when its reaction time is below
the 200 ms threshold of src line 519.  Declared for comparison with the
implemented populations; the implementation stores no false-alarm flag on
records at all. -/
def specStatsPopulation (records : List ResultRecord) : List ResultRecord :=
  records.filter (fun r =>
    (match r.reaction_time_ms with
     | none => false
     | some v => decide (v < 200)) = false
    ∧ r.reaction_time_ms.isSome)

/-- A logged false-alarm response: detected at 10% with a 100 ms reaction
time (below the 200 ms threshold). -/
def falseAlarmRecord : ResultRecord :=
  { participant_id := "P01"
    gender := "Male"
    age := 30
    step_number := 1
    total_steps := 10
    percentage_complete := 10
    hex_code := "#ff0d00"
    rgb := "(255, 13, 0)"
    reaction_time_ms := some 100
    spectrum := some "Red to Orange"
    trial_number := some 1
    overall_trial := some 1 }

/-- A logged valid response: detected at 30% with a 400 ms reaction time. -/
def validRecord : ResultRecord :=
  { participant_id := "P01"
    gender := "Male"
    age := 30
    step_number := 3
    total_steps := 10
    percentage_complete := 30
    hex_code := "#ff2800"
    rgb := "(255, 40, 0)"
    reaction_time_ms := some 400
    spectrum := some "Red to Orange"
    trial_number := some 1
    overall_trial := some 1 }

/-- **C8** (counterexample).  With one false-alarm record (10%, 100 ms) and
one valid record (30%, 400 ms) in the log, the results page's mean detection
percentage is 20 — the mean over *all* records — while the mean over the
spec's population (false alarms excluded) is 30.  The summary statistics are
not computed only over non-false-alarm records. -/
theorem stats_filter_cex :
    (detection_points_stats [falseAlarmRecord, validRecord]).mean = 20
    ∧ listMean ((specStatsPopulation [falseAlarmRecord, validRecord]).map
        (fun r => r.percentage_complete)) = 30
    ∧ (20 : ℚ) ≠ 30
    ∧ (reaction_time_stats [falseAlarmRecord, validRecord]).mean = 250 := by
  refine ⟨by with_unfolding_all rfl, by with_unfolding_all rfl,
    by norm_num, by with_unfolding_all rfl⟩

/-- Reaction-time columns ignore records whose reaction time is absent, and
nothing else. -/
theorem filterMap_rt_filter_isSome (records : List ResultRecord) :
    (records.filter (fun r => r.reaction_time_ms.isSome)).filterMap
      (fun r => r.reaction_time_ms)
      = records.filterMap (fun r => r.reaction_time_ms) := by
  induction records with
  | nil => rfl
  | cons r rest ih =>
    cases h : r.reaction_time_ms with
    | none => simp [List.filter_cons, List.filterMap_cons, h, ih]
    | some v => simp [List.filter_cons, List.filterMap_cons, h, ih]

/-- **C8** (amended).  The percentage statistics (overall and per spectrum)
are computed over *all* logged records of the group — false alarms are not
excluded, and records carry no false-alarm flag — while the reaction-time
statistics are computed over exactly the records with a present
`reaction_time_ms`; every standard deviation is the square root of the
sample variance, the one with the `n - 1` denominator. -/
theorem stats_population_amended (records : List ResultRecord)
    (name : String) (xs : List ℚ) (h2 : 2 ≤ xs.length) :
    detection_points_stats records
      = seriesStats (records.map (fun r => r.percentage_complete))
    ∧ spectrum_group_stats records name
      = seriesStats ((records.filter (fun r => r.spectrum == some name)).map
          (fun r => r.percentage_complete))
    ∧ reaction_time_stats records
      = seriesStats (List.filterMap (fun r => r.reaction_time_ms)
          (records.filter (fun r => r.reaction_time_ms.isSome)))
    ∧ sampleVariance xs * ((xs.length : ℚ) - 1)
      = (xs.map (fun x => (x - listMean xs) ^ 2)).sum := by
  refine ⟨rfl, rfl, ?_, ?_⟩
  · unfold reaction_time_stats
    rw [filterMap_rt_filter_isSome]
  · unfold sampleVariance
    have hne : ((xs.length : ℚ) - 1) ≠ 0 := by
      have : (2 : ℚ) ≤ (xs.length : ℚ) := by exact_mod_cast h2
      intro hc
      rw [sub_eq_zero] at hc
      rw [hc] at this
      norm_num at this
    exact div_mul_cancel₀ _ hne

/-- Witness for the amended C8 at the two-record log and its percentage
column [10, 30]. -/
theorem stats_population_witness :
    2 ≤ ([10, 30] : List ℚ).length
    ∧ detection_points_stats [falseAlarmRecord, validRecord]
      = seriesStats ([falseAlarmRecord, validRecord].map
          (fun r => r.percentage_complete))
    ∧ sampleVariance [10, 30] * ((([10, 30] : List ℚ).length : ℚ) - 1)
      = (([10, 30] : List ℚ).map
          (fun x => (x - listMean [10, 30]) ^ 2)).sum := by
  have h := stats_population_amended [falseAlarmRecord, validRecord]
    "Red to Orange" [10, 30] (by decide)
  exact ⟨by decide, h.1, h.2.2.2⟩

end ColourExperiment
